import Mathlib

/-!
# Verification of the connection/room hub and TikTok bridge

Shallow embedding of the `tiktok_apirest` repository:

* the application-level socket handlers of `src/index.ts`
  (`message`, `join-room`, `private-message`, `live:tiktok`, `disconnect`);
* the TikTok platform wrapper `src/platforms/tiktoklive.ts`
  (`createLive`, `getLive`, `createLiveIfNotExist`, `disconnectLive`);
* the connection/room hub (`websocket-adapter`) and the shared process
  emitter (`Emitter`), whose source files are not in the repository
  snapshot; these are modelled from the specification (`spec.md`),
  as indicated by the doc comment of each such definition.

Machine-level JSON text serialisation is abstracted: wire frames are
represented by structured JSON values.
-/

namespace Hub

/-- A JSON-like value: the payloads carried by wire envelopes. -/
inductive Json where
  | null : Json
  | bool : Bool → Json
  | num : Int → Json
  | str : String → Json
  | arr : List Json → Json
  | obj : List (String × Json) → Json

/-- The wire message unit: `{ event, data }` (spec §3, §6). -/
structure Envelope where
  event : String
  data : Json

/-- First value stored under the given string key in an association
list (JSON object fields, room index, connection maps). -/
def alookup {α : Type} : List (String × α) → String → Option α
  | [], _ => none
  | (k, v) :: rest, key => if k = key then some v else alookup rest key

/-- Modelled from the spec: the Envelope Codec of the missing
`websocket-adapter` module (§4.1).  `encode` produces the JSON object
`{ "event": ..., "data": ... }` for a wire frame. -/
def encode (e : Envelope) : Json :=
  Json.obj [("event", Json.str e.event), ("data", e.data)]

/-- Modelled from the spec: the Envelope Codec of the missing
`websocket-adapter` module (§4.1).  `decode` fails (returns `none`,
never throws) when the frame is not an object or lacks a string
`event` field; a missing `data` field decodes as `null`. -/
def decode (j : Json) : Option Envelope :=
  match j with
  | Json.obj fields =>
    match alookup fields "event" with
    | some (Json.str ev) => some ⟨ev, (alookup fields "data").getD Json.null⟩
    | _ => none
  | _ => none

/-- Modelled from the spec: how a multi-argument `emit` builds the
`data` field (§4.1): a single positional argument is encoded as the
bare value, several arguments as an ordered sequence. -/
def encodeArgs : List Json → Json
  | [a] => a
  | args => Json.arr args

/-- An `emit(event, ...args)` call encodes as an envelope whose data
field follows `encodeArgs`. -/
def encodeEmit (event : String) (args : List Json) : Envelope :=
  ⟨event, encodeArgs args⟩

/-! ## Registry and Room Index (membership view) -/

/-- Modelled from the spec: the membership view of the Hub state
(§3): the Registry as the set of live Connection Identifiers, and the
Room Index as a mapping from room name to member identifiers. -/
structure HubState where
  registry : List String
  rooms : List (String × List String)
deriving DecidableEq, Repr

/- The Room Index is an association list with shadowing: the live
member set of a room is the FIRST entry for its name (`alookup`);
membership updates push a fresh entry.  Superseded entries are stale
history, invisible through `membersOf`. -/

/-- The hub before any connection: empty Registry, empty Room Index. -/
def initHub : HubState := ⟨[], []⟩

/-- Member identifiers of a room (empty if the room was never created),
spec §4.3 `membersOf`. -/
def membersOf (s : HubState) (room : String) : List String :=
  (alookup s.rooms room).getD []

/-- Modelled from the spec: Room Manager `join(id, room)` (§4.3): adds
`id` to the room's member set, creating the Room if absent; no-op when
already a member. -/
def joinRoom (s : HubState) (id room : String) : HubState :=
  if id ∈ membersOf s room then s
  else { s with rooms := (room, id :: membersOf s room) :: s.rooms }

/-- Modelled from the spec: Room Manager `leave(id, room)` (§4.3):
removes `id` from the room's member set; no-op when not a member. -/
def leaveRoom (s : HubState) (id room : String) : HubState :=
  match alookup s.rooms room with
  | none => s
  | some old =>
    { s with rooms := (room, old.filter (fun m => m ≠ id)) :: s.rooms }

/-- Modelled from the spec: Registry `register` (§4.2) plus the
default-room auto-join (§2, glossary): stores a fresh identifier and
joins it to the default room.  Identifiers are never reused, so a
register for an id already present is not emitted by the transport
layer; it is modelled as a no-op. -/
def registerConn (s : HubState) (id : String) : HubState :=
  if id ∈ s.registry then s
  else joinRoom { s with registry := id :: s.registry } id "general"

/-- Modelled from the spec: disconnection (§4.5): atomically remove the
id from all rooms and from the Registry; removing an absent id is a
no-op (§4.2 `remove` idempotence). -/
def closeConn (s : HubState) (id : String) : HubState :=
  { registry := s.registry.filter (fun x => x ≠ id),
    rooms := s.rooms.map (fun p => (p.1, p.2.filter (fun m => m ≠ id))) }

/-- The operations that mutate the membership view of the hub.
`join`/`leave` are reached only through the Socket Handle of a live
(registered) connection, spec §4.4/§4.5. -/
inductive HubOp where
  | register (id : String)
  | join (id room : String)
  | leave (id room : String)
  | close (id : String)
deriving DecidableEq, Repr

/-- One hub transition.  A `join`/`leave` issued for an identifier no
longer in the Registry drops silently (spec §5: operations addressing
an absent id drop rather than fail). -/
def hubStep (s : HubState) : HubOp → HubState
  | HubOp.register id => registerConn s id
  | HubOp.join id room => if id ∈ s.registry then joinRoom s id room else s
  | HubOp.leave id room => if id ∈ s.registry then leaveRoom s id room else s
  | HubOp.close id => closeConn s id

/-- The state reached from the initial hub by a sequence of operations. -/
def runHub (ops : List HubOp) : HubState :=
  ops.foldl hubStep initHub

/-- The membership-consistency invariant (spec §3): every identifier in
any Room's member set is in the Registry. -/
def memberConsistent (s : HubState) : Prop :=
  ∀ p ∈ s.rooms, ∀ id ∈ p.2, id ∈ s.registry

/-! ## Socket lifecycle (state machine) -/

/-- The two lifecycle states of a socket (spec §4.5). -/
inductive SockState where
  | opened : SockState
  | closed : SockState
deriving DecidableEq, Repr

/-- Modelled from the spec: the per-connection lifecycle record
(§4.5): the current state and, for each handler registered for
`"disconnect"` on this socket, the number of times it has fired. -/
structure SocketLC where
  st : SockState
  fires : List Nat
deriving DecidableEq, Repr

/-- A socket as created at registration: Open, no handler fired yet
(`n` disconnect handlers registered). -/
def freshSocket (n : Nat) : SocketLC :=
  ⟨SockState.opened, List.replicate n 0⟩

/-- The transport-level signals a socket can receive after opening.
All three close-like causes behave identically (spec §4.5). -/
inductive Signal where
  | explicitClose : Signal
  | transportError : Signal
  | remoteDisconnect : Signal
deriving DecidableEq, Repr

/-- Modelled from the spec: the Open→Closed transition (§4.5): on a
close trigger in Open, fire every `"disconnect"` handler once and move
to Closed; any trigger in Closed is ignored. -/
def signalStep (s : SocketLC) (_sig : Signal) : SocketLC :=
  match s.st with
  | SockState.opened => ⟨SockState.closed, s.fires.map (· + 1)⟩
  | SockState.closed => s

/-- Running a whole sequence of close-like signals on a socket. -/
def runSignals (s : SocketLC) (sigs : List Signal) : SocketLC :=
  sigs.foldl signalStep s

/-! ## Room broadcast -/

/-- Modelled from the spec: Room Manager
`broadcast(room, envelope, excludeId?)` (§4.3): the encoded envelope is
delivered to every current member of the room except `excludeId`; the
result is the delivery list of (recipient id, wire frame) pairs. -/
def broadcast (members : List String) (env : Envelope) (excludeId : Option String) :
    List (String × Json) :=
  (match excludeId with
   | some ex => members.filter (fun m => m ≠ ex)
   | none => members).map (fun m => (m, encode env))

/-- Modelled from the spec: the `to(room)` proxy of a Socket Handle
(§4.4): `s.to(room).emit(event, args)` broadcasts to the room with
`excludeId = s.id`. -/
def toRoomEmit (members : List String) (senderId : String)
    (event : String) (args : List Json) : List (String × Json) :=
  broadcast members (encodeEmit event args) (some senderId)

/-! ## Application-level handler state

The handlers installed by `src/index.ts` act on the hub's membership
view and produce envelopes addressed to connections.  `sent` records,
in order, every `(recipient id, envelope)` pair the handlers emit. -/

/-- The state the `src/index.ts` handlers act on: the hub membership
view plus the ordered log of emitted envelopes. -/
structure AppState where
  hub : HubState
  sent : List (String × Envelope)

/-- Modelled from the spec: `socket.emit` (§4.4) — encode and write
directly to one socket's own transport (appends to the delivery log;
a write to a gone transport is dropped at the transport layer). -/
def emitTo (s : AppState) (id : String) (env : Envelope) : AppState :=
  { s with sent := s.sent ++ [(id, env)] }

/-- Modelled from the spec: `socket.to(room).emit` at the application
state (§4.4): broadcast the envelope to every current member of the
room except `exclude`. -/
def broadcastRoomApp (s : AppState) (room : String) (env : Envelope)
    (exclude : String) : AppState :=
  let recips := ((membersOf s.hub room).filter (fun m => m ≠ exclude)).map
    (fun m => (m, env))
  { s with sent := s.sent ++ recips }

/-- The `private-message` handler of `src/index.ts` (lines 36–46):
look the target up in `io.clients`; if present, emit a
`private-message` envelope `{from, message}` to the target, else emit
an `error` envelope back to the sender. -/
def onPrivateMessage (s : AppState) (senderId targetSocketId : String)
    (message : Json) : AppState :=
  if targetSocketId ∈ s.hub.registry then
    emitTo s targetSocketId
      ⟨"private-message",
        Json.obj [("from", Json.str senderId), ("message", message)]⟩
  else
    emitTo s senderId
      ⟨"error",
        Json.str ("User " ++ targetSocketId ++ " not found or disconnected.")⟩

/-- The `join-room` handler of `src/index.ts` (lines 29–34):
`socket.leave('general')`, `socket.join(room)`, emit `joined` to the
socket, then `socket.to(room).emit('user-joined', ...)`. -/
def onJoinRoom (s : AppState) (senderId room : String) : AppState :=
  let s1 : AppState := { s with hub := leaveRoom s.hub senderId "general" }
  let s2 : AppState := { s1 with hub := joinRoom s1.hub senderId room }
  let s3 : AppState :=
    emitTo s2 senderId ⟨"joined", Json.str ("You joined room: " ++ room)⟩
  broadcastRoomApp s3 room
    ⟨"user-joined", Json.str (senderId ++ " joined the room")⟩ senderId

/-! ## Shared process emitter and the `live:tiktok` handler -/

/-- Modelled from the spec: the shared process-wide event emitter of
the missing `Emitter` module (§9): an ordered listener table.  Each
listener closure is identified by the fresh token it received when it
was created; `nextTok` is the supply of fresh tokens.  A listener row
is `(emitter event name, captured username, token)`. -/
structure EmitterState where
  nextTok : Nat
  listeners : List (String × String × Nat)
deriving DecidableEq, Repr

/-- Modelled from the spec: `emitter.on(event, listener)` — appends
the (freshly created) listener to the table, removing nothing. -/
def emitterOn (e : EmitterState) (ev u : String) : EmitterState :=
  { nextTok := e.nextTok + 1, listeners := e.listeners ++ [(ev, u, e.nextTok)] }

/-- The `disconnect` handler of `src/index.ts` (lines 69–71): it only
logs; it does not touch the shared emitter's listener table. -/
def onDisconnectHandler (e : EmitterState) : EmitterState := e

end Hub

namespace TL

/-! ## `src/platforms/tiktoklive.ts`

The external `TikTokLiveConnection` object is modelled by its
observable surface: an identity (`connId`, fresh per `new`), the
listener table populated by `connection.on` (each closure identified
by a fresh token), and whether `disconnect()` has been called.
Whether `connection.connect()` resolves or rejects is a parameter
(`connectOk`); a rejection is the `Except.error` outcome. -/

/-- A `TikTokLiveConnection` object as observed by the wrapper. -/
structure Conn where
  connId : Nat
  handlers : List (String × Nat)
  disconnected : Bool
deriving DecidableEq, Repr

/-- The state `tiktoklive.ts` acts on: the fresh-object and
fresh-closure supplies, the module-level `CurrentLiveMap`, and the
ordered log of `(event, username)` pairs emitted on the shared
process emitter. -/
structure TLState where
  nextConn : Nat
  nextTok : Nat
  currentLiveMap : List (String × Conn)
  emitted : List (String × String)
deriving DecidableEq, Repr

/-- `connection.on(event, closure)` for each event of
`TiktokEventsArray`, consuming one fresh closure token per event
(createLive lines 24–33). -/
def attachToks : Nat → List String → List (String × Nat)
  | _, [] => []
  | t, e :: es => (e, t) :: attachToks (t + 1) es

/-- `createLive` (tiktoklive.ts lines 14–43): construct a fresh
connection, `await connection.connect()`; on success emit
`tiktok:connected` and register one forwarding closure per webcast
event, returning the connection; on rejection emit
`tiktok:disconnected` and rethrow.  `CurrentLiveMap` is never touched
here. -/
def createLive (events : List String) (s : TLState) (u : String)
    (connectOk : Bool) : Except Unit Conn × TLState :=
  let c : Conn := ⟨s.nextConn, [], false⟩
  let s1 : TLState := { s with nextConn := s.nextConn + 1 }
  if connectOk then
    let s2 : TLState := { s1 with emitted := s1.emitted ++ [("tiktok:connected", u)] }
    (Except.ok { c with handlers := attachToks s2.nextTok events },
     { s2 with nextTok := s2.nextTok + events.length })
  else
    (Except.error (), { s1 with emitted := s1.emitted ++ [("tiktok:disconnected", u)] })

/-- `getLive` (tiktoklive.ts lines 50–52): `CurrentLiveMap.get`. -/
def getLive (s : TLState) (u : String) : Option Conn :=
  Hub.alookup s.currentLiveMap u

/-- `CurrentLiveMap.set`: replace the stored value when the key is
present, append otherwise. -/
def setAssoc (l : List (String × Conn)) (k : String) (v : Conn) :
    List (String × Conn) :=
  if (Hub.alookup l k).isSome then
    l.map (fun p => if p.1 = k then (k, v) else p)
  else l ++ [(k, v)]

/-- `CurrentLiveMap.delete`. -/
def removeAssoc (l : List (String × Conn)) (k : String) : List (String × Conn) :=
  l.filter (fun p => p.1 ≠ k)

/-- `createLiveIfNotExist` (tiktoklive.ts lines 59–64): only when
`CurrentLiveMap` has no entry for the username, `await createLive`
and store the result; the map is set only after the await succeeds. -/
def createLiveIfNotExist (events : List String) (s : TLState) (u : String)
    (connectOk : Bool) : Except Unit Unit × TLState :=
  if (Hub.alookup s.currentLiveMap u).isSome then (Except.ok (), s)
  else
    match createLive events s u connectOk with
    | (Except.ok c, s') =>
      (Except.ok (), { s' with currentLiveMap := setAssoc s'.currentLiveMap u c })
    | (Except.error e, s') => (Except.error e, s')

/-- `connection.off(event, closure)`: removes at most one listener,
and only one that is the very closure reference passed. -/
def removeFirst : List (String × Nat) → String × Nat → List (String × Nat)
  | [], _ => []
  | x :: xs, k => if x = k then xs else x :: removeFirst xs k

/-- The `forEach` loop of `disconnectLive` (tiktoklive.ts lines
79–87): for each webcast event, call `connection.off(event, closure)`
with a closure created on the spot — so with a token drawn from the
fresh supply. -/
def offFresh : List (String × Nat) → Nat → List String → List (String × Nat)
  | hs, _, [] => hs
  | hs, t, e :: es => offFresh (removeFirst hs (e, t)) (t + 1) es

/-- `disconnectLive` (tiktoklive.ts lines 70–89): when a connection is
stored for the username — `connection.disconnect()`, delete the map
entry, emit one `tiktok:disconnected`, then the `off` loop with fresh
closures.  The first component is the connection object as the
retained closures still see it after the call. -/
def disconnectLive (events : List String) (s : TLState) (u : String) :
    Option Conn × TLState :=
  match Hub.alookup s.currentLiveMap u with
  | none => (none, s)
  | some c =>
    let c1 : Conn := { c with disconnected := true }
    (some { c1 with handlers := offFresh c1.handlers s.nextTok events },
     { s with currentLiveMap := removeAssoc s.currentLiveMap u,
              emitted := s.emitted ++ [("tiktok:disconnected", u)],
              nextTok := s.nextTok + events.length })

/-- Every closure token registered on a stored connection was drawn
from the supply earlier, hence is below `nextTok`. -/
def tokInv (s : TLState) : Prop :=
  ∀ p ∈ s.currentLiveMap, ∀ q ∈ p.2.handlers, q.2 < s.nextTok

instance (s : TLState) : Decidable (tokInv s) := by
  unfold tokInv; infer_instance

end TL

namespace Hub

/-- The `live:tiktok` handler of `src/index.ts` (lines 48–67).  The
handler is `async` and begins with
`await TiktokFunctions.createLiveIfNotExist(tiktokUsername)`: only
when that await resolves does it go on to register three fresh
listeners on the shared emitter, for `tiktok:connected`,
`tiktok:event` and `tiktok:disconnected`, each capturing the requested
username.  When the await rejects (a fresh username whose
`connection.connect()` fails), the handler body aborts before any
`emitter.on` call, so no listener is registered.  Nothing is ever
unregistered on either path.  The result pairs the TikTok wrapper
state with the emitter state after the invocation. -/
def onLiveTiktok (events : List String) (ts : TL.TLState) (e : EmitterState)
    (tiktokUsername : String) (connectOk : Bool) : TL.TLState × EmitterState :=
  match TL.createLiveIfNotExist events ts tiktokUsername connectOk with
  | (Except.ok _, ts2) =>
    (ts2, emitterOn (emitterOn (emitterOn e "tiktok:connected" tiktokUsername)
      "tiktok:event" tiktokUsername) "tiktok:disconnected" tiktokUsername)
  | (Except.error _, ts2) => (ts2, e)

end Hub

namespace Hub

/-! ## Lemmas about lookup and membership -/

theorem alookup_mem {α : Type} {l : List (String × α)} {k : String} {v : α}
    (h : alookup l k = some v) : (k, v) ∈ l := by
  induction l with
  | nil => exact absurd h (by simp [alookup])
  | cons x xs ih =>
    obtain ⟨xk, xv⟩ := x
    by_cases he : xk = k
    · subst he
      simp [alookup] at h
      subst h
      exact List.mem_cons_self _ _
    · simp only [alookup, if_neg he] at h
      exact List.mem_cons_of_mem _ (ih h)

theorem mem_registry_of_mem_membersOf {s : HubState} {m room : String}
    (hc : memberConsistent s) (hm : m ∈ membersOf s room) : m ∈ s.registry := by
  unfold membersOf at hm
  cases h : alookup s.rooms room with
  | none => rw [h] at hm; simp at hm
  | some old =>
    rw [h] at hm
    simp only [Option.getD_some] at hm
    exact hc (room, old) (alookup_mem h) m hm

theorem memberConsistent_initHub : memberConsistent initHub := by
  intro p hp
  simp [initHub] at hp

theorem memberConsistent_mono {s : HubState} {reg : List String}
    (hc : memberConsistent s) (hsub : s.registry ⊆ reg) :
    memberConsistent ⟨reg, s.rooms⟩ :=
  fun p hp id hid => hsub (hc p hp id hid)

theorem memberConsistent_joinRoom {s : HubState} {id room : String}
    (hc : memberConsistent s) (hid : id ∈ s.registry) :
    memberConsistent (joinRoom s id room) := by
  unfold joinRoom
  split
  · exact hc
  · intro p hp m hm
    rcases List.mem_cons.mp hp with rfl | hp
    · rcases List.mem_cons.mp hm with rfl | hm
      · exact hid
      · exact mem_registry_of_mem_membersOf (s := s) hc hm
    · exact hc p hp m hm

theorem memberConsistent_leaveRoom {s : HubState} {id room : String}
    (hc : memberConsistent s) : memberConsistent (leaveRoom s id room) := by
  unfold leaveRoom
  cases h : alookup s.rooms room with
  | none => exact hc
  | some old =>
    intro p hp m hm
    rcases List.mem_cons.mp hp with rfl | hp
    · exact hc (room, old) (alookup_mem h) m (List.mem_filter.mp hm).1
    · exact hc p hp m hm

theorem memberConsistent_registerConn {s : HubState} (id : String)
    (hc : memberConsistent s) : memberConsistent (registerConn s id) := by
  unfold registerConn
  split
  · exact hc
  · exact memberConsistent_joinRoom
      (memberConsistent_mono hc (fun x hx => List.mem_cons_of_mem _ hx))
      (List.mem_cons_self _ _)

theorem memberConsistent_closeConn {s : HubState} (id : String)
    (hc : memberConsistent s) : memberConsistent (closeConn s id) := by
  intro p hp m hm
  simp only [closeConn, List.mem_map] at hp
  obtain ⟨q, hq, rfl⟩ := hp
  have hm' := List.mem_filter.mp hm
  exact List.mem_filter.mpr ⟨hc q hq m hm'.1, hm'.2⟩

theorem memberConsistent_hubStep {s : HubState} (op : HubOp)
    (hc : memberConsistent s) : memberConsistent (hubStep s op) := by
  cases op with
  | register id => exact memberConsistent_registerConn id hc
  | join id room =>
    simp only [hubStep]
    split
    · exact memberConsistent_joinRoom hc (by assumption)
    · exact hc
  | leave id room =>
    simp only [hubStep]
    split
    · exact memberConsistent_leaveRoom hc
    · exact hc
  | close id => exact memberConsistent_closeConn id hc

theorem memberConsistent_foldl (ops : List HubOp) :
    ∀ s, memberConsistent s → memberConsistent (ops.foldl hubStep s) := by
  induction ops with
  | nil => exact fun s hs => hs
  | cons op rest ih => exact fun s hs => ih _ (memberConsistent_hubStep op hs)

/-- C1: in every reachable hub state, every Connection Identifier in
any Room's member set also exists in the Registry, and closing a
connection (which removes it from the Registry) removes the id from
every Room's member set — no dangling membership. -/
theorem hub_membership_consistency (ops : List HubOp) (id : String) :
    memberConsistent (runHub ops) ∧
    ∀ p ∈ (hubStep (runHub ops) (HubOp.close id)).rooms, id ∉ p.2 := by
  constructor
  · exact memberConsistent_foldl ops initHub memberConsistent_initHub
  · intro p hp
    simp only [hubStep, closeConn, List.mem_map] at hp
    obtain ⟨q, hq, rfl⟩ := hp
    intro hid
    have := (List.mem_filter.mp hid).2
    simp at this

theorem hub_membership_consistency_witness :
    (("general", ["a"]) ∈
      (hubStep (runHub [HubOp.register "a"]) (HubOp.close "b")).rooms) ∧
    "b" ∉ (("general", ["a"]) : String × List String).2 :=
  ⟨by decide,
   (hub_membership_consistency [HubOp.register "a"] "b").2 ("general", ["a"])
     (by decide)⟩

/-! ## Socket lifecycle theorems -/

theorem runSignals_closed {s : SocketLC} (hs : s.st = SockState.closed)
    (sigs : List Signal) : runSignals s sigs = s := by
  induction sigs with
  | nil => rfl
  | cons sig rest ih =>
    show runSignals (signalStep s sig) rest = s
    have hstep : signalStep s sig = s := by
      unfold signalStep
      rw [hs]
    rw [hstep]
    exact ih

/-- C2: a socket transitions Open→Closed at most once: any nonempty
sequence of close-like signals (explicit close, transport error, remote
disconnect) leaves the socket Closed with every registered disconnect
handler fired exactly once, and a further signal on an already-Closed
socket is an idempotent no-op that fires no handler. -/
theorem socket_closes_once (n : Nat) (sig : Signal) (sigs : List Signal) :
    (runSignals (freshSocket n) (sig :: sigs)).st = SockState.closed ∧
    (runSignals (freshSocket n) (sig :: sigs)).fires = List.replicate n 1 ∧
    ∀ s : SocketLC, s.st = SockState.closed → ∀ sig2, signalStep s sig2 = s := by
  have h1 : signalStep (freshSocket n) sig = ⟨SockState.closed, List.replicate n 1⟩ := by
    unfold signalStep freshSocket
    simp
  have h2 : runSignals (freshSocket n) (sig :: sigs) =
      ⟨SockState.closed, List.replicate n 1⟩ := by
    show runSignals (signalStep (freshSocket n) sig) sigs = _
    rw [h1]
    exact runSignals_closed rfl sigs
  refine ⟨by rw [h2], by rw [h2], ?_⟩
  intro s hs sig2
  unfold signalStep
  rw [hs]

theorem socket_closes_once_witness :
    (SocketLC.mk SockState.closed [1, 1]).st = SockState.closed ∧
    signalStep (SocketLC.mk SockState.closed [1, 1]) Signal.transportError =
      SocketLC.mk SockState.closed [1, 1] :=
  ⟨rfl,
   (socket_closes_once 2 Signal.explicitClose []).2.2
     (SocketLC.mk SockState.closed [1, 1]) rfl Signal.transportError⟩

/-! ## Broadcast sender-exclusion theorems -/

/-- C3: a room-scoped emit `s.to(R).emit(event, args)` delivers the
encoded envelope to every current member of R other than the sender,
and never delivers the frame to the sender itself. -/
theorem to_room_emit_sender_exclusion (members : List String)
    (senderId event : String) (args : List Json) :
    (∀ m ∈ members, m ≠ senderId →
      (m, encode (encodeEmit event args)) ∈
        toRoomEmit members senderId event args) ∧
    ∀ j, (senderId, j) ∉ toRoomEmit members senderId event args := by
  constructor
  · intro m hm hne
    unfold toRoomEmit broadcast
    exact List.mem_map_of_mem _ (List.mem_filter.mpr ⟨hm, by simp [hne]⟩)
  · intro j hj
    unfold toRoomEmit broadcast at hj
    simp only [List.mem_map] at hj
    obtain ⟨x, hx, hxe⟩ := hj
    have hxs : x = senderId := congrArg Prod.fst hxe
    subst hxs
    have := (List.mem_filter.mp hx).2
    simp at this

theorem to_room_emit_sender_exclusion_witness :
    ("b" ∈ (["a", "b"] : List String) ∧ "b" ≠ "a") ∧
    ("b", encode (encodeEmit "broadcast" [Json.str "hi"])) ∈
      toRoomEmit ["a", "b"] "a" "broadcast" [Json.str "hi"] ∧
    ∀ j, ("a", j) ∉ toRoomEmit ["a", "b"] "a" "broadcast" [Json.str "hi"] :=
  ⟨⟨by decide, by decide⟩,
   (to_room_emit_sender_exclusion ["a", "b"] "a" "broadcast" [Json.str "hi"]).1
     "b" (by decide) (by decide),
   (to_room_emit_sender_exclusion ["a", "b"] "a" "broadcast" [Json.str "hi"]).2⟩

/-! ## Private-message handler theorems -/

/-- C4: on `private-message`, an absent target yields exactly one
`error` envelope back to the sender whose text names the missing
target, with the hub state untouched (the sender stays registered and
Open) and no exception (the handler is a total function); a present
target alone receives a `private-message` envelope carrying the
sender's id and the message. -/
theorem private_message_handling (s : AppState) (senderId target : String)
    (msg : Json) :
    (target ∉ s.hub.registry →
      onPrivateMessage s senderId target msg =
        { s with sent := s.sent ++
          [(senderId, ⟨"error",
            Json.str ("User " ++ target ++ " not found or disconnected.")⟩)] }) ∧
    (target ∈ s.hub.registry →
      onPrivateMessage s senderId target msg =
        { s with sent := s.sent ++
          [(target, ⟨"private-message",
            Json.obj [("from", Json.str senderId), ("message", msg)]⟩)] }) ∧
    (onPrivateMessage s senderId target msg).hub = s.hub := by
  refine ⟨fun h => ?_, fun h => ?_, ?_⟩
  · simp [onPrivateMessage, emitTo, h]
  · simp [onPrivateMessage, emitTo, h]
  · unfold onPrivateMessage emitTo
    split <;> rfl

theorem private_message_handling_witness :
    ("zz" ∉ (["a"] : List String) ∧
      onPrivateMessage (AppState.mk ⟨["a"], [("general", ["a"])]⟩ []) "a" "zz"
          (Json.str "hi") =
        AppState.mk ⟨["a"], [("general", ["a"])]⟩
          [("a", ⟨"error",
            Json.str ("User " ++ "zz" ++ " not found or disconnected.")⟩)]) ∧
    ("a" ∈ (["a"] : List String) ∧
      onPrivateMessage (AppState.mk ⟨["a"], [("general", ["a"])]⟩ []) "b" "a"
          (Json.str "yo") =
        AppState.mk ⟨["a"], [("general", ["a"])]⟩
          [("a", ⟨"private-message",
            Json.obj [("from", Json.str "b"), ("message", Json.str "yo")]⟩)]) :=
  ⟨⟨by decide,
    (private_message_handling (AppState.mk ⟨["a"], [("general", ["a"])]⟩ [])
      "a" "zz" (Json.str "hi")).1 (by decide)⟩,
   ⟨by decide,
    (private_message_handling (AppState.mk ⟨["a"], [("general", ["a"])]⟩ [])
      "b" "a" (Json.str "yo")).2.1 (by decide)⟩⟩

/-! ## Envelope codec theorems -/

/-- C5: the codec round-trip law: decoding an encoded envelope
recovers exactly the original event name and payload; a
single-argument emit encodes the bare value under `data` and a
multi-argument emit encodes the ordered argument sequence. -/
theorem envelope_codec_roundtrip (e : Envelope) :
    decode (encode e) = some e ∧
    (∀ event a, encodeEmit event [a] = ⟨event, a⟩) ∧
    (∀ event a b args, encodeEmit event (a :: b :: args) =
      ⟨event, Json.arr (a :: b :: args)⟩) := by
  refine ⟨?_, fun _ _ => rfl, fun _ _ _ _ => rfl⟩
  cases e
  rfl

/-! ## Join-room handler theorems -/

theorem not_mem_membersOf_leaveRoom (s : HubState) (id room : String) :
    id ∉ membersOf (leaveRoom s id room) room := by
  unfold leaveRoom
  cases h : alookup s.rooms room with
  | none => simp [membersOf, h]
  | some old => simp [membersOf, alookup]

theorem membersOf_joinRoom_self (s : HubState) (id room : String) :
    id ∈ membersOf (joinRoom s id room) room := by
  unfold joinRoom
  split
  · next h => exact h
  · simp [membersOf, alookup]

theorem membersOf_joinRoom_other {s : HubState} {id room other : String}
    (h : other ≠ room) :
    membersOf (joinRoom s id room) other = membersOf s other := by
  unfold joinRoom
  split
  · rfl
  · simp [membersOf, alookup, Ne.symm h]

/-- C6 counterexample: the claim says the `join-room` handler removes
the socket from the default room `general`; with `R = "general"` the
handler re-adds the socket, so after the handler the socket is still a
member of `general`. -/
theorem join_room_general_counterexample :
    "a" ∈ membersOf
      (onJoinRoom (AppState.mk ⟨["a"], [("general", ["a"])]⟩ []) "a"
        "general").hub "general" := by decide

/-- C6 (amended): on `join-room` with room name R the handler leaves
`general` and joins R — so whenever R ≠ "general" the socket is no
longer a member of `general` — the socket is a member of R, the socket
receives a `joined` envelope whose payload contains R, and every other
current member of R receives a `user-joined` envelope containing the
joining socket's id. -/
theorem join_room_handler (s : AppState) (senderId room : String) :
    (room ≠ "general" →
      senderId ∉ membersOf (onJoinRoom s senderId room).hub "general") ∧
    senderId ∈ membersOf (onJoinRoom s senderId room).hub room ∧
    (senderId, ⟨"joined", Json.str ("You joined room: " ++ room)⟩) ∈
      (onJoinRoom s senderId room).sent ∧
    room.data <:+ ("You joined room: " ++ room).data ∧
    ∀ m ∈ membersOf (onJoinRoom s senderId room).hub room, m ≠ senderId →
      (m, ⟨"user-joined", Json.str (senderId ++ " joined the room")⟩) ∈
        (onJoinRoom s senderId room).sent := by
  have hhub : (onJoinRoom s senderId room).hub =
      joinRoom (leaveRoom s.hub senderId "general") senderId room := rfl
  have hsent : (onJoinRoom s senderId room).sent =
      (s.sent ++ [(senderId, ⟨"joined", Json.str ("You joined room: " ++ room)⟩)]) ++
        ((membersOf (joinRoom (leaveRoom s.hub senderId "general") senderId room)
            room).filter (fun m => m ≠ senderId)).map
          (fun m => (m, ⟨"user-joined", Json.str (senderId ++ " joined the room")⟩)) :=
    rfl
  refine ⟨fun hne => ?_, ?_, ?_, ?_, ?_⟩
  · rw [hhub, membersOf_joinRoom_other (Ne.symm hne)]
    exact not_mem_membersOf_leaveRoom s.hub senderId "general"
  · rw [hhub]
    exact membersOf_joinRoom_self _ _ _
  · rw [hsent]
    exact List.mem_append_left _ (List.mem_append_right _ (List.mem_cons_self _ _))
  · rw [String.data_append]
    exact List.suffix_append _ _
  · intro m hm hne
    rw [hsent]
    refine List.mem_append_right _ ?_
    refine List.mem_map_of_mem _ (List.mem_filter.mpr ⟨?_, by simp [hne]⟩)
    rw [hhub] at hm
    exact hm

theorem join_room_handler_witness :
    ("shared" ≠ "general" ∧
      "a" ∉ membersOf
        (onJoinRoom
          (AppState.mk ⟨["a", "b"], [("general", ["a", "b"]), ("shared", ["b"])]⟩ [])
          "a" "shared").hub "general") ∧
    ("b" ∈ membersOf
        (onJoinRoom
          (AppState.mk ⟨["a", "b"], [("general", ["a", "b"]), ("shared", ["b"])]⟩ [])
          "a" "shared").hub "shared" ∧
      "b" ≠ "a" ∧
      ("b", (⟨"user-joined", Json.str ("a" ++ " joined the room")⟩ : Envelope)) ∈
        (onJoinRoom
          (AppState.mk ⟨["a", "b"], [("general", ["a", "b"]), ("shared", ["b"])]⟩ [])
          "a" "shared").sent) :=
  ⟨⟨by decide,
    (join_room_handler
      (AppState.mk ⟨["a", "b"], [("general", ["a", "b"]), ("shared", ["b"])]⟩ [])
      "a" "shared").1 (by decide)⟩,
   ⟨by decide, by decide,
    (join_room_handler
      (AppState.mk ⟨["a", "b"], [("general", ["a", "b"]), ("shared", ["b"])]⟩ [])
      "a" "shared").2.2.2.2 "b" (by decide) (by decide)⟩⟩

/-! ## live:tiktok listener accumulation theorems -/

/-- C7 counterexample: an invocation of the `live:tiktok` handler
whose awaited `createLiveIfNotExist` rejects (a fresh username whose
`connection.connect()` fails) aborts before any `emitter.on` call:
this concrete invocation registers zero listeners on the shared
emitter, not three. -/
theorem live_tiktok_no_listener_on_reject :
    (onLiveTiktok ["chat"] (TL.TLState.mk 0 0 [] []) (EmitterState.mk 0 [])
      "user" false).2.listeners = [] := rfl

/-- C7 (amended): an invocation of the `live:tiktok` handler whose
awaited `createLiveIfNotExist` resolves registers three new listeners
(for `tiktok:connected`, `tiktok:event`, `tiktok:disconnected`) on the
shared emitter without removing any listener registered by a previous
invocation; an invocation whose await rejects registers none; on
either path no existing listener is removed (the old table is a prefix
of the new one), and the socket's `disconnect` handler removes no
listener either. -/
theorem live_tiktok_listener_leak (events : List String) (ts : TL.TLState)
    (e : EmitterState) (u : String) (connectOk : Bool) :
    ((TL.createLiveIfNotExist events ts u connectOk).1 = Except.ok () →
      (onLiveTiktok events ts e u connectOk).2.listeners =
        e.listeners ++
          [("tiktok:connected", u, e.nextTok),
           ("tiktok:event", u, e.nextTok + 1),
           ("tiktok:disconnected", u, e.nextTok + 2)]) ∧
    ((TL.createLiveIfNotExist events ts u connectOk).1 = Except.error () →
      (onLiveTiktok events ts e u connectOk).2 = e) ∧
    e.listeners <+: (onLiveTiktok events ts e u connectOk).2.listeners ∧
    onDisconnectHandler e = e := by
  rcases hr : TL.createLiveIfNotExist events ts u connectOk with ⟨res, ts2⟩
  have hunfold : onLiveTiktok events ts e u connectOk =
      match (res, ts2) with
      | (Except.ok _, ts2) =>
        (ts2, emitterOn (emitterOn (emitterOn e "tiktok:connected" u)
          "tiktok:event" u) "tiktok:disconnected" u)
      | (Except.error _, ts2) => (ts2, e) := by
    unfold onLiveTiktok
    rw [hr]
  cases res with
  | ok v =>
    have heq : (onLiveTiktok events ts e u connectOk).2.listeners =
        e.listeners ++
          [("tiktok:connected", u, e.nextTok),
           ("tiktok:event", u, e.nextTok + 1),
           ("tiktok:disconnected", u, e.nextTok + 2)] := by
      rw [hunfold]
      simp [emitterOn]
    refine ⟨fun _ => heq, fun hbad => ?_, ?_, rfl⟩
    · exact absurd hbad (by simp)
    · rw [heq]
      exact List.prefix_append _ _
  | error v =>
    have heq : (onLiveTiktok events ts e u connectOk).2 = e := by
      rw [hunfold]
    refine ⟨fun hbad => ?_, fun _ => heq, ?_, rfl⟩
    · exact absurd hbad (by simp)
    · rw [heq]

theorem live_tiktok_listener_leak_witness :
    ((TL.createLiveIfNotExist ["chat"]
        (TL.TLState.mk 1 0 [("user", TL.Conn.mk 0 [] false)] []) "user" true).1 =
      Except.ok () ∧
      (onLiveTiktok ["chat"]
        (TL.TLState.mk 1 0 [("user", TL.Conn.mk 0 [] false)] [])
        (EmitterState.mk 0 []) "user" true).2.listeners =
        ([] : List (String × String × Nat)) ++
          [("tiktok:connected", "user", 0),
           ("tiktok:event", "user", 1),
           ("tiktok:disconnected", "user", 2)]) ∧
    ((TL.createLiveIfNotExist ["chat"] (TL.TLState.mk 0 0 [] []) "user" false).1 =
      Except.error () ∧
      (onLiveTiktok ["chat"] (TL.TLState.mk 0 0 [] [])
        (EmitterState.mk 5 [("tiktok:event", "other", 0)]) "user" false).2 =
        EmitterState.mk 5 [("tiktok:event", "other", 0)]) :=
  ⟨⟨rfl,
    (live_tiktok_listener_leak ["chat"]
      (TL.TLState.mk 1 0 [("user", TL.Conn.mk 0 [] false)] [])
      (EmitterState.mk 0 []) "user" true).1 rfl⟩,
   ⟨rfl,
    (live_tiktok_listener_leak ["chat"] (TL.TLState.mk 0 0 [] [])
      (EmitterState.mk 5 [("tiktok:event", "other", 0)]) "user" false).2.1 rfl⟩⟩

end Hub

namespace TL

/-! ## TikTok wrapper theorems -/

/-- C8: for a username already stored in `CurrentLiveMap`,
`createLiveIfNotExist` is a no-op: no new external connection is
created, the whole state is unchanged, and `getLive` returns the single
stored connection. -/
theorem createLiveIfNotExist_idempotent (events : List String) (s : TLState)
    (u : String) (c : Conn) (h : Hub.alookup s.currentLiveMap u = some c)
    (connectOk : Bool) :
    createLiveIfNotExist events s u connectOk = (Except.ok (), s) ∧
    getLive s u = some c := by
  constructor
  · simp [createLiveIfNotExist, h]
  · exact h

theorem createLiveIfNotExist_idempotent_witness :
    Hub.alookup
        (TLState.mk 1 2 [("user", Conn.mk 0 [("chat", 0), ("gift", 1)] false)]
          []).currentLiveMap "user" =
      some (Conn.mk 0 [("chat", 0), ("gift", 1)] false) ∧
    createLiveIfNotExist ["chat", "gift"]
        (TLState.mk 1 2 [("user", Conn.mk 0 [("chat", 0), ("gift", 1)] false)] [])
        "user" true =
      (Except.ok (),
        TLState.mk 1 2 [("user", Conn.mk 0 [("chat", 0), ("gift", 1)] false)] []) ∧
    getLive (TLState.mk 1 2 [("user", Conn.mk 0 [("chat", 0), ("gift", 1)] false)] [])
        "user" =
      some (Conn.mk 0 [("chat", 0), ("gift", 1)] false) :=
  ⟨by decide,
   (createLiveIfNotExist_idempotent ["chat", "gift"]
     (TLState.mk 1 2 [("user", Conn.mk 0 [("chat", 0), ("gift", 1)] false)] [])
     "user" (Conn.mk 0 [("chat", 0), ("gift", 1)] false) (by decide) true).1,
   (createLiveIfNotExist_idempotent ["chat", "gift"]
     (TLState.mk 1 2 [("user", Conn.mk 0 [("chat", 0), ("gift", 1)] false)] [])
     "user" (Conn.mk 0 [("chat", 0), ("gift", 1)] false) (by decide) true).2⟩

/-- C9: when `connection.connect()` rejects inside `createLive`, the
call emits exactly one `tiktok:disconnected` event for the username
(and no `tiktok:connected`), rethrows the error, and on this failure
path `createLiveIfNotExist` stores nothing: `CurrentLiveMap` is
unchanged. -/
theorem createLive_connect_failure (events : List String) (s : TLState)
    (u : String) (h : Hub.alookup s.currentLiveMap u = none) :
    (createLive events s u false).1 = Except.error () ∧
    (createLive events s u false).2.emitted =
      s.emitted ++ [("tiktok:disconnected", u)] ∧
    (createLiveIfNotExist events s u false).1 = Except.error () ∧
    (createLiveIfNotExist events s u false).2.currentLiveMap =
      s.currentLiveMap := by
  refine ⟨rfl, rfl, ?_, ?_⟩
  · simp [createLiveIfNotExist, createLive, h]
  · simp [createLiveIfNotExist, createLive, h]

theorem createLive_connect_failure_witness :
    Hub.alookup (TLState.mk 0 0 [] []).currentLiveMap "user" = none ∧
    (createLive ["chat"] (TLState.mk 0 0 [] []) "user" false).1 =
      Except.error () ∧
    (createLive ["chat"] (TLState.mk 0 0 [] []) "user" false).2.emitted =
      ([] : List (String × String)) ++ [("tiktok:disconnected", "user")] ∧
    (createLiveIfNotExist ["chat"] (TLState.mk 0 0 [] []) "user" false).2.currentLiveMap =
      ([] : List (String × Conn)) :=
  ⟨by decide,
   (createLive_connect_failure ["chat"] (TLState.mk 0 0 [] []) "user" (by decide)).1,
   (createLive_connect_failure ["chat"] (TLState.mk 0 0 [] []) "user" (by decide)).2.1,
   (createLive_connect_failure ["chat"] (TLState.mk 0 0 [] []) "user" (by decide)).2.2.2⟩

theorem removeFirst_eq_self {hs : List (String × Nat)} {k : String × Nat}
    (h : k ∉ hs) : removeFirst hs k = hs := by
  induction hs with
  | nil => rfl
  | cons x xs ih =>
    rw [List.mem_cons, not_or] at h
    simp only [removeFirst]
    rw [if_neg (fun he => h.1 he.symm), ih h.2]

theorem offFresh_eq_self {hs : List (String × Nat)} (es : List String) (t : Nat)
    (h : ∀ q ∈ hs, q.2 < t) : offFresh hs t es = hs := by
  induction es generalizing t with
  | nil => rfl
  | cons e es ih =>
    have hne : (e, t) ∉ hs := fun hm => absurd (h _ hm) (Nat.lt_irrefl t)
    simp only [offFresh]
    rw [removeFirst_eq_self hne]
    exact ih (t + 1) (fun q hq => Nat.lt_succ_of_lt (h q hq))

/-- C10: for a stored connection, the `connection.off` calls inside
`disconnectLive` pass freshly created closures that were never
registered, so they remove nothing: afterwards the connection object
still carries every handler attached by `createLive`, with
`disconnect()` called on it; the state change is exactly deleting the
username from `CurrentLiveMap` and emitting one `tiktok:disconnected`
event (no connection is created or mutated otherwise). -/
theorem disconnectLive_removes_no_handler (events : List String) (s : TLState)
    (u : String) (c : Conn) (hinv : tokInv s)
    (h : Hub.alookup s.currentLiveMap u = some c) :
    (disconnectLive events s u).1 = some { c with disconnected := true } ∧
    (disconnectLive events s u).2.currentLiveMap =
      removeAssoc s.currentLiveMap u ∧
    (disconnectLive events s u).2.emitted =
      s.emitted ++ [("tiktok:disconnected", u)] ∧
    (disconnectLive events s u).2.nextConn = s.nextConn := by
  have hc : ∀ q ∈ c.handlers, q.2 < s.nextTok :=
    hinv (u, c) (Hub.alookup_mem h)
  have hred : disconnectLive events s u =
      (some { connId := c.connId,
              handlers := offFresh c.handlers s.nextTok events,
              disconnected := true },
       { nextConn := s.nextConn, nextTok := s.nextTok + events.length,
         currentLiveMap := removeAssoc s.currentLiveMap u,
         emitted := s.emitted ++ [("tiktok:disconnected", u)] }) := by
    unfold disconnectLive
    rw [h]
  rw [hred, offFresh_eq_self events s.nextTok hc]
  exact ⟨rfl, rfl, rfl, rfl⟩

theorem disconnectLive_removes_no_handler_witness :
    tokInv (TLState.mk 1 2 [("user", Conn.mk 0 [("chat", 0), ("gift", 1)] false)] []) ∧
    Hub.alookup
        (TLState.mk 1 2 [("user", Conn.mk 0 [("chat", 0), ("gift", 1)] false)]
          []).currentLiveMap "user" =
      some (Conn.mk 0 [("chat", 0), ("gift", 1)] false) ∧
    (disconnectLive ["chat", "gift"]
        (TLState.mk 1 2 [("user", Conn.mk 0 [("chat", 0), ("gift", 1)] false)] [])
        "user").1 =
      some (Conn.mk 0 [("chat", 0), ("gift", 1)] true) ∧
    (disconnectLive ["chat", "gift"]
        (TLState.mk 1 2 [("user", Conn.mk 0 [("chat", 0), ("gift", 1)] false)] [])
        "user").2.emitted =
      [("tiktok:disconnected", "user")] :=
  ⟨by decide, by decide,
   (disconnectLive_removes_no_handler ["chat", "gift"]
     (TLState.mk 1 2 [("user", Conn.mk 0 [("chat", 0), ("gift", 1)] false)] [])
     "user" (Conn.mk 0 [("chat", 0), ("gift", 1)] false) (by decide) (by decide)).1,
   (disconnectLive_removes_no_handler ["chat", "gift"]
     (TLState.mk 1 2 [("user", Conn.mk 0 [("chat", 0), ("gift", 1)] false)] [])
     "user" (Conn.mk 0 [("chat", 0), ("gift", 1)] false) (by decide) (by decide)).2.2.1⟩

end TL

namespace TL

/-! Supporting fact: the closure-token invariant assumed by the
`disconnectLive` theorem is maintained by `createLiveIfNotExist`, the
only operation that stores connections. -/

theorem attachToks_bound {q : String × Nat} (t : Nat) (es : List String)
    (h : q ∈ attachToks t es) : q.2 < t + es.length := by
  induction es generalizing t with
  | nil => simp [attachToks] at h
  | cons e es ih =>
    rcases List.mem_cons.mp h with rfl | h2
    · simp only [List.length_cons]
      show t < t + (es.length + 1)
      omega
    · have := ih (t + 1) h2
      simp only [List.length_cons]
      omega

theorem tokInv_createLiveIfNotExist (events : List String) (s : TLState)
    (u : String) (ok : Bool) (hinv : tokInv s) :
    tokInv (createLiveIfNotExist events s u ok).2 := by
  by_cases hsome : (Hub.alookup s.currentLiveMap u).isSome
  · have hstep : createLiveIfNotExist events s u ok = (Except.ok (), s) := by
      unfold createLiveIfNotExist
      rw [if_pos hsome]
    rw [hstep]
    exact hinv
  · have hnone : Hub.alookup s.currentLiveMap u = none := by
      cases hAl : Hub.alookup s.currentLiveMap u with
      | none => rfl
      | some c => rw [hAl] at hsome; simp at hsome
    cases ok with
    | false =>
      have hstep : (createLiveIfNotExist events s u false).2 =
          { s with nextConn := s.nextConn + 1,
                   emitted := s.emitted ++ [("tiktok:disconnected", u)] } := by
        simp [createLiveIfNotExist, createLive, hnone]
      rw [hstep]
      intro p hp q hq
      exact hinv p hp q hq
    | true =>
      have hstep : (createLiveIfNotExist events s u true).2 =
          { nextConn := s.nextConn + 1, nextTok := s.nextTok + events.length,
            currentLiveMap := s.currentLiveMap ++
              [(u, ⟨s.nextConn, attachToks s.nextTok events, false⟩)],
            emitted := s.emitted ++ [("tiktok:connected", u)] } := by
        simp [createLiveIfNotExist, createLive, setAssoc, hnone]
      rw [hstep]
      intro p hp q hq
      rcases List.mem_append.mp hp with hold | hnew
      · exact Nat.lt_of_lt_of_le (hinv p hold q hq) (Nat.le_add_right _ _)
      · rcases List.mem_cons.mp hnew with rfl | hfalse
        · exact attachToks_bound s.nextTok events hq
        · simp at hfalse

end TL
